import Mathlib

/-!
Verification of the logistic-map core of `src/logistic_map_student.py`.

The embedding uses exact rational arithmetic (`ℚ`) for the real-valued
floating-point computation, `List ℚ` for the numpy buffers, and `Option`
for numpy index errors: writing outside a buffer raises `IndexError` in
the source, which the embedding models as `none`.

Embedded operations:
* `iterate_logistic` — the trajectory function: allocates a zero buffer of
  length `n_iter`, writes `x0` at index 0, then runs
  `for i in range(1, n_iter): x[i] = r * x[i-1] * (1 - x[i-1])`.
* `plot_feigenbaum_sweep` — the numeric part of `plot_feigenbaum`
  (plotting excluded): a linspace over the parameter range, one shared
  buffer reused across parameter values, per-value reset of index 0 to
  `0.5`, the same inner loop, and aggregation of the post-transient tails
  into two parallel lists.  The source hard-codes the configuration
  `r_min = 2.6, r_max = 4.0, num_r = 1401, n_iter = 250, n_discard = 100`;
  the embedding keeps those as parameters so that the sweep contract can
  be stated for every configuration, and `feigenbaum_config` records the
  hard-coded values.
-/

/-- One logistic-map update `r * x * (1 - x)`, the right-hand side of the
assignment on line 21 / line 76 of the source. -/
def logistic_step (r x : ℚ) : ℚ := r * x * (1 - x)

/-- Numpy element assignment `l[i] = v`: in-range writes update the buffer,
out-of-range writes raise `IndexError`, modelled as `none`. -/
def setAt (l : List ℚ) (i : ℕ) (v : ℚ) : Option (List ℚ) :=
  if i < l.length then some (l.set i v) else none

/-- The inner iteration loop, `for i in range(i, i+k): x[i] = r*x[i-1]*(1-x[i-1])`,
reading and writing the buffer in place.  `k` counts the remaining loop
iterations; both the read of `x[i-1]` and the write of `x[i]` are fallible. -/
def iterLoop (r : ℚ) : ℕ → ℕ → List ℚ → Option (List ℚ)
  | _, 0, x => some x
  | i, k+1, x =>
    (x[i-1]?).bind fun prev =>
      (setAt x i (logistic_step r prev)).bind fun x1 =>
        iterLoop r (i+1) k x1

/-- `iterate_logistic(r, x0, n_iter)` from the source: `x = np.zeros(n_iter)`,
`x[0] = x0`, then the inner loop over `range(1, n_iter)`. -/
def iterate_logistic (r x0 : ℚ) (n_iter : ℕ) : Option (List ℚ) :=
  (setAt (List.replicate n_iter 0) 0 x0).bind fun x =>
    iterLoop r 1 (n_iter - 1) x

/-- The mathematical trajectory value at step `j`: `traj r x0 0 = x0` and
`traj r x0 (j+1) = logistic_step r (traj r x0 j)`.  Used to state what the
imperative buffer code computes. -/
def traj (r x0 : ℚ) : ℕ → ℚ
  | 0 => x0
  | j+1 => logistic_step r (traj r x0 j)

/-- The trajectory of length `n` as a list: element `j` is `traj r x0 j`. -/
def logisticList (r x0 : ℚ) (n : ℕ) : List ℚ :=
  (List.range n).map (traj r x0)

/-- `np.linspace(a, b, num)`: `num` evenly spaced values from `a` to `b`
inclusive; a single value equals `a` when `num = 1`, and the list is empty
when `num = 0`. -/
def linspace (a b : ℚ) (num : ℕ) : List ℚ :=
  if num = 1 then [a]
  else (List.range num).map fun k : ℕ => a + (k : ℚ) * (b - a) / ((num : ℚ) - 1)

/-- One run of the sweep body for parameter `r` on the shared buffer `x`
(of length `n_iter`): `x[0] = 0.5` followed by the inner loop over
`range(1, n_iter)`.  Lines 74–76 of the source. -/
def runOne (r : ℚ) (n_iter : ℕ) (x : List ℚ) : Option (List ℚ) :=
  (setAt x 0 (1/2)).bind fun x1 => iterLoop r 1 (n_iter - 1) x1

/-- The outer sweep loop of `plot_feigenbaum` (lines 72–80): for each `r`
in the parameter list, rerun the buffer, then extend `r_plot` with
`[r] * (n_iter - n_discard)` and `x_plot` with `x[n_discard:]`.  The buffer
`x` is shared across iterations exactly as in the source. -/
def feigenbaum_loop (n_iter n_discard : ℕ) :
    List ℚ → List ℚ → List ℚ → List ℚ → Option (List ℚ × List ℚ)
  | [], _, r_plot, x_plot => some (r_plot, x_plot)
  | r :: rs, x, r_plot, x_plot =>
    (runOne r n_iter x).bind fun x2 =>
      feigenbaum_loop n_iter n_discard rs x2
        (r_plot ++ List.replicate (n_iter - n_discard) r)
        (x_plot ++ x2.drop n_discard)

/-- The numeric computation of `plot_feigenbaum` (lines 59–80), with the
hard-coded configuration generalized to parameters: linspace the parameter
range, allocate the shared zero buffer once, and run the outer loop
starting from empty output lists. -/
def plot_feigenbaum_sweep (r_min r_max : ℚ) (num_r n_iter n_discard : ℕ) :
    Option (List ℚ × List ℚ) :=
  feigenbaum_loop n_iter n_discard (linspace r_min r_max num_r)
    (List.replicate n_iter 0) [] []

/-- The configuration hard-coded in `plot_feigenbaum`:
`(r_min, r_max, num_r, n_iter, n_discard) = (2.6, 4.0, 1401, 250, 100)`. -/
def feigenbaum_config : ℚ × ℚ × ℕ × ℕ × ℕ := (13/5, 4, 1401, 250, 100)

/-! ### Basic properties of the mathematical trajectory -/

/-- The trajectory list has the requested length. -/
theorem length_logisticList (r x0 : ℚ) (n : ℕ) :
    (logisticList r x0 n).length = n := by
  simp [logisticList]

/-- Element `j` of the trajectory list is `traj r x0 j`. -/
theorem getElem?_logisticList {j n : ℕ} (hj : j < n) (r x0 : ℚ) :
    (logisticList r x0 n)[j]? = some (traj r x0 j) := by
  simp [logisticList, List.getElem?_map, List.getElem?_range hj]

/-- In-range writes succeed. -/
theorem setAt_of_lt {l : List ℚ} {i : ℕ} (h : i < l.length) (v : ℚ) :
    setAt l i v = some (l.set i v) := by
  simp [setAt, h]

/-- The inner loop, run from index `i` with `k` steps remaining on a buffer
whose first `i` entries already hold the trajectory values, fills the whole
buffer with the trajectory. -/
theorem iterLoop_eq (r x0 : ℚ) (n : ℕ) :
    ∀ (k i : ℕ) (x : List ℚ), x.length = n → 1 ≤ i → i + k = n →
      (∀ j, j < i → x[j]? = some (traj r x0 j)) →
      iterLoop r i k x = some (logisticList r x0 n) := by
  intro k
  induction k with
  | zero =>
    intro i x hlen hi hik hpre
    have hx : x = logisticList r x0 n := by
      apply List.ext_getElem?
      intro j
      by_cases hj : j < n
      · rw [hpre j (by omega), getElem?_logisticList hj]
      · rw [List.getElem?_eq_none (by omega),
          List.getElem?_eq_none (by rw [length_logisticList]; omega)]
    rw [iterLoop, hx]
  | succ k ih =>
    intro i x hlen hi hik hpre
    have hin : i < n := by omega
    have hstep : logistic_step r (traj r x0 (i-1)) = traj r x0 i := by
      conv_rhs => rw [show i = (i-1)+1 by omega]
      rfl
    rw [iterLoop, hpre (i-1) (by omega), Option.some_bind,
      setAt_of_lt (by omega), Option.some_bind, hstep]
    apply ih (i+1)
    · simp [hlen]
    · omega
    · omega
    · intro j hj
      by_cases hji : j = i
      · subst hji
        rw [List.getElem?_set_eq_of_lt _ (by omega)]
      · rw [List.getElem?_set_ne (by omega)]
        exact hpre j (by omega)

/-- For `n ≥ 1`, `iterate_logistic` succeeds and returns the trajectory. -/
theorem iterate_logistic_eq (r x0 : ℚ) {n : ℕ} (hn : 1 ≤ n) :
    iterate_logistic r x0 n = some (logisticList r x0 n) := by
  rw [iterate_logistic, setAt_of_lt (by simp; omega), Option.some_bind]
  apply iterLoop_eq r x0 n (n-1) 1
  · simp
  · omega
  · omega
  · intro j hj
    have hj0 : j = 0 := by omega
    subst hj0
    rw [List.getElem?_set_eq_of_lt _ (by simp; omega)]
    rfl

/-- One sweep-body run on any buffer of length `n` produces the trajectory
of `0.5`, regardless of the buffer's previous contents. -/
theorem runOne_eq (r : ℚ) {n : ℕ} (hn : 1 ≤ n) {x : List ℚ}
    (hlen : x.length = n) :
    runOne r n x = some (logisticList r (1/2) n) := by
  rw [runOne, setAt_of_lt (by omega), Option.some_bind]
  apply iterLoop_eq r (1/2) n (n-1) 1
  · simp [hlen]
  · omega
  · omega
  · intro j hj
    have hj0 : j = 0 := by omega
    subst hj0
    rw [List.getElem?_set_eq_of_lt _ (by omega)]
    rfl

/-- The outer sweep loop appends, for each parameter in order, the constant
parameter block and the post-transient tail of the fresh trajectory. -/
theorem feigenbaum_loop_eq {n_iter : ℕ} (n_discard : ℕ) (hn : 1 ≤ n_iter) :
    ∀ (rs x r_plot x_plot : List ℚ), x.length = n_iter →
      feigenbaum_loop n_iter n_discard rs x r_plot x_plot =
        some (r_plot ++ rs.flatMap (fun r => List.replicate (n_iter - n_discard) r),
              x_plot ++ rs.flatMap fun r => (logisticList r (1/2) n_iter).drop n_discard) := by
  intro rs
  induction rs with
  | nil =>
    intro x rp xp hlen
    simp [feigenbaum_loop]
  | cons r rs ih =>
    intro x rp xp hlen
    rw [feigenbaum_loop, runOne_eq r hn hlen, Option.some_bind,
      ih _ _ _ (length_logisticList r (1/2) n_iter)]
    simp [List.flatMap_cons, List.append_assoc]

/-- Closed form of the whole sweep, for any configuration with `n_iter ≥ 1`. -/
theorem plot_feigenbaum_sweep_eq (r_min r_max : ℚ) (num_r : ℕ) {n_iter : ℕ}
    (n_discard : ℕ) (hn : 1 ≤ n_iter) :
    plot_feigenbaum_sweep r_min r_max num_r n_iter n_discard =
      some ((linspace r_min r_max num_r).flatMap
              (fun r => List.replicate (n_iter - n_discard) r),
            (linspace r_min r_max num_r).flatMap
              fun r => (logisticList r (1/2) n_iter).drop n_discard) := by
  rw [plot_feigenbaum_sweep, feigenbaum_loop_eq n_discard hn _ _ _ _ (by simp)]
  simp

/-! ### Properties of `linspace` and the aggregation -/

/-- `linspace` produces exactly `num` values. -/
theorem length_linspace (a b : ℚ) (num : ℕ) : (linspace a b num).length = num := by
  unfold linspace
  split
  · simp [*]
  · rw [List.length_map, List.length_range]

/-- Element `k` of `linspace a b num` is `a + k * (b - a) / (num - 1)`,
and `a` itself when `num = 1`. -/
theorem getElem?_linspace (a b : ℚ) {num k : ℕ} (hk : k < num) :
    (linspace a b num)[k]? =
      some (if num = 1 then a else a + k * (b - a) / ((num : ℚ) - 1)) := by
  unfold linspace
  split
  · have hk0 : k = 0 := by omega
    subst hk0
    simp [*]
  · rw [List.getElem?_map, List.getElem?_range hk]
    rfl

/-- The length of a `flatMap` whose blocks all have length `m`. -/
theorem length_flatMap_const (rs : List ℚ) (f : ℚ → List ℚ) (m : ℕ)
    (hf : ∀ r, (f r).length = m) : (rs.flatMap f).length = rs.length * m := by
  induction rs with
  | nil => simp
  | cons r rs ih => simp [List.flatMap_cons, hf, ih, Nat.succ_mul, Nat.add_comm]

/-- For `a ≤ b`, `linspace a b num` is sorted in non-decreasing order. -/
theorem pairwise_le_linspace {a b : ℚ} (hab : a ≤ b) (num : ℕ) :
    (linspace a b num).Pairwise (· ≤ ·) := by
  rcases Nat.eq_zero_or_pos num with rfl | hpos
  · simp [linspace]
  unfold linspace
  split
  · simp
  · next h =>
    have hD : (0:ℚ) < (num:ℚ) - 1 := by
      have h2 : (2:ℚ) ≤ (num:ℚ) := by exact_mod_cast (by omega : 2 ≤ num)
      linarith
    rw [List.pairwise_map]
    refine List.Pairwise.imp ?_ (List.pairwise_lt_range num)
    intro j k hjk
    have hjk2 : (j:ℚ) ≤ (k:ℚ) := by exact_mod_cast hjk.le
    have hd : (0:ℚ) ≤ (b - a) / ((num:ℚ) - 1) := div_nonneg (by linarith) hD.le
    have hmul := mul_le_mul_of_nonneg_right hjk2 hd
    calc a + (j:ℚ) * (b - a) / ((num:ℚ) - 1)
        = a + (j:ℚ) * ((b - a) / ((num:ℚ) - 1)) := by ring
      _ ≤ a + (k:ℚ) * ((b - a) / ((num:ℚ) - 1)) := by linarith
      _ = a + (k:ℚ) * (b - a) / ((num:ℚ) - 1) := by ring

/-- Replicating each element of a sorted list keeps the result sorted. -/
theorem pairwise_flatMap_replicate {rs : List ℚ} (m : ℕ)
    (h : rs.Pairwise (· ≤ ·)) :
    (rs.flatMap fun r => List.replicate m r).Pairwise (· ≤ ·) := by
  induction rs with
  | nil => simp
  | cons r rs ih =>
    rw [List.flatMap_cons, List.pairwise_append]
    rw [List.pairwise_cons] at h
    refine ⟨List.pairwise_replicate.2 (Or.inr le_rfl), ih h.2, ?_⟩
    intro x hx y hy
    rw [List.eq_of_mem_replicate hx]
    rw [List.mem_flatMap] at hy
    obtain ⟨r2, hr2, hyr⟩ := hy
    rw [List.eq_of_mem_replicate hyr]
    exact h.1 r2 hr2

/-! ### Fixed points and boundedness of the map -/

/-- Starting at the nontrivial fixed point `1 - 1/r`, the trajectory is
constant. -/
theorem traj_fixed {r : ℚ} (hr : r ≠ 0) (j : ℕ) :
    traj r (1 - 1/r) j = 1 - 1/r := by
  induction j with
  | zero => rfl
  | succ j ih =>
    rw [traj, ih, logistic_step]
    field_simp

/-- The trajectory list from the fixed point is constant. -/
theorem logisticList_fixed {r : ℚ} (hr : r ≠ 0) (n : ℕ) :
    logisticList r (1 - 1/r) n = List.replicate n (1 - 1/r) := by
  unfold logisticList
  rw [List.map_congr_left fun j _ => traj_fixed hr j]
  simp [List.map_const']

/-- One logistic update stays in `[0, 1]` when `0 ≤ r ≤ 4` and `0 ≤ x ≤ 1`. -/
theorem logistic_step_bounds {r x : ℚ} (hr0 : 0 ≤ r) (hr4 : r ≤ 4)
    (hx0 : 0 ≤ x) (hx1 : x ≤ 1) :
    0 ≤ logistic_step r x ∧ logistic_step r x ≤ 1 := by
  unfold logistic_step
  constructor
  · have h1 : (0:ℚ) ≤ 1 - x := by linarith
    positivity
  · nlinarith [sq_nonneg (2*x - 1), mul_nonneg hx0 (by linarith : (0:ℚ) ≤ 1 - x)]

/-- Every trajectory value stays in `[0, 1]` when `0 ≤ r ≤ 4` and
`0 ≤ x0 ≤ 1`. -/
theorem traj_bounds {r x0 : ℚ} (hr0 : 0 ≤ r) (hr4 : r ≤ 4)
    (hx0 : 0 ≤ x0) (hx1 : x0 ≤ 1) (j : ℕ) :
    0 ≤ traj r x0 j ∧ traj r x0 j ≤ 1 := by
  induction j with
  | zero => exact ⟨hx0, hx1⟩
  | succ j ih => exact logistic_step_bounds hr0 hr4 ih.1 ih.2

/-! ### The claims -/

/-- Claim C1: for every rate `r`, initial value `x0`, and `n_iter ≥ 1`,
`iterate_logistic r x0 n_iter` returns a sequence of length exactly
`n_iter` whose element 0 is `x0` and whose element `i`, for every
`1 ≤ i < n_iter`, equals `r * x[i-1] * (1 - x[i-1])`. -/
theorem C1_trajectory_recurrence (r x0 : ℚ) (n_iter : ℕ) (hn : 1 ≤ n_iter) :
    ∃ x : List ℚ, iterate_logistic r x0 n_iter = some x ∧
      x.length = n_iter ∧ x[0]? = some x0 ∧
      ∀ i, 1 ≤ i → i < n_iter →
        ∃ xi xp : ℚ, x[i]? = some xi ∧ x[i-1]? = some xp ∧
          xi = r * xp * (1 - xp) := by
  refine ⟨logisticList r x0 n_iter, iterate_logistic_eq r x0 hn,
    length_logisticList r x0 n_iter, ?_, ?_⟩
  · rw [getElem?_logisticList (by omega)]
    rfl
  · intro i h1 h2
    refine ⟨traj r x0 i, traj r x0 (i-1), getElem?_logisticList h2 r x0,
      getElem?_logisticList (by omega) r x0, ?_⟩
    conv_lhs => rw [show i = (i-1)+1 by omega]
    rfl

/-- Witness for C1 at `r = 3`, `x0 = 1/2`, `n_iter = 2`. -/
theorem C1_trajectory_recurrence_witness :
    ∃ x : List ℚ, iterate_logistic 3 (1/2) 2 = some x ∧
      x.length = 2 ∧ x[0]? = some (1/2) ∧
      ∀ i, 1 ≤ i → i < 2 →
        ∃ xi xp : ℚ, x[i]? = some xi ∧ x[i-1]? = some xp ∧
          xi = 3 * xp * (1 - xp) :=
  C1_trajectory_recurrence 3 (1/2) 2 (by decide)

/-- Claim C2: for every valid configuration, the sweep visits `num_r` evenly
spaced parameter values over `[r_min, r_max]` (value `k` is
`r_min + k * (r_max - r_min) / (num_r - 1)` for `num_r > 1`, and `r_min`
when `num_r = 1`), and the two output lists are, in parameter order, the
concatenations of `r` repeated `n_iter - n_discard` times and of the
elements at indices `n_discard` through `n_iter - 1` of the trajectory
started from the shared initial value `0.5`. -/
theorem C2_sweep_structure (r_min r_max : ℚ) (num_r n_iter n_discard : ℕ)
    (hnum : 1 ≤ num_r) (hd : n_discard < n_iter) (hr : r_min ≤ r_max) :
    (linspace r_min r_max num_r).length = num_r ∧
    (∀ k, k < num_r → (linspace r_min r_max num_r)[k]? =
        some (if num_r = 1 then r_min
              else r_min + (k:ℚ) * (r_max - r_min) / ((num_r:ℚ) - 1))) ∧
    plot_feigenbaum_sweep r_min r_max num_r n_iter n_discard =
      some ((linspace r_min r_max num_r).flatMap
              (fun r => List.replicate (n_iter - n_discard) r),
            (linspace r_min r_max num_r).flatMap
              fun r => (logisticList r (1/2) n_iter).drop n_discard) :=
  ⟨length_linspace r_min r_max num_r,
   fun _ hk => getElem?_linspace r_min r_max hk,
   plot_feigenbaum_sweep_eq r_min r_max num_r n_discard (by omega)⟩

/-- Witness for C2 at `r_min = 0`, `r_max = 1`, `num_r = 2`, `n_iter = 2`,
`n_discard = 1`. -/
theorem C2_sweep_structure_witness :
    (linspace 0 1 2).length = 2 ∧
    (∀ k : ℕ, k < 2 → (linspace 0 1 2)[k]? =
        some (if 2 = 1 then 0 else 0 + (k:ℚ) * (1 - 0) / (((2:ℕ):ℚ) - 1))) ∧
    plot_feigenbaum_sweep 0 1 2 2 1 =
      some ((linspace 0 1 2).flatMap (fun r => List.replicate (2 - 1) r),
            (linspace 0 1 2).flatMap
              fun r => (logisticList r (1/2) 2).drop 1) :=
  C2_sweep_structure 0 1 2 2 1 (by decide) (by decide) (by norm_num)

/-- Claim C3: for every valid configuration, the two output sequences of
the sweep have equal length, equal to `num_r * (n_iter - n_discard)`. -/
theorem C3_sweep_lengths (r_min r_max : ℚ) (num_r n_iter n_discard : ℕ)
    (hnum : 1 ≤ num_r) (hd : n_discard < n_iter) (hr : r_min ≤ r_max) :
    ∃ ps xs : List ℚ,
      plot_feigenbaum_sweep r_min r_max num_r n_iter n_discard = some (ps, xs) ∧
      ps.length = xs.length ∧ ps.length = num_r * (n_iter - n_discard) := by
  refine ⟨_, _, plot_feigenbaum_sweep_eq r_min r_max num_r n_discard (by omega),
    ?_, ?_⟩
  · rw [length_flatMap_const _ _ (n_iter - n_discard)
        (fun r => List.length_replicate _ _),
      length_flatMap_const _ _ (n_iter - n_discard)
        (fun r => by rw [List.length_drop, length_logisticList])]
  · rw [length_flatMap_const _ _ (n_iter - n_discard)
        (fun r => List.length_replicate _ _), length_linspace]

/-- Witness for C3 at the configuration hard-coded in `plot_feigenbaum`:
both output sequences have length `1401 * 150 = 210150`. -/
theorem C3_sweep_lengths_witness :
    ∃ ps xs : List ℚ,
      plot_feigenbaum_sweep (13/5) 4 1401 250 100 = some (ps, xs) ∧
      ps.length = xs.length ∧ ps.length = 1401 * 150 :=
  C3_sweep_lengths (13/5) 4 1401 250 100 (by decide) (by decide) (by norm_num)

/-- Claim C5: for every valid configuration with `r_min ≤ r_max`, the
`parameters_sampled` output is non-decreasing, and consists of the `num_r`
linspace values, each repeated as a constant run, in ascending order. -/
theorem C5_parameters_sorted (r_min r_max : ℚ) (num_r n_iter n_discard : ℕ)
    (hnum : 1 ≤ num_r) (hd : n_discard < n_iter) (hr : r_min ≤ r_max) :
    ∃ ps xs : List ℚ,
      plot_feigenbaum_sweep r_min r_max num_r n_iter n_discard = some (ps, xs) ∧
      ps.Chain' (· ≤ ·) ∧
      (linspace r_min r_max num_r).Pairwise (· ≤ ·) ∧
      (linspace r_min r_max num_r).length = num_r ∧
      ps = (linspace r_min r_max num_r).flatMap
             (fun r => List.replicate (n_iter - n_discard) r) := by
  refine ⟨_, _, plot_feigenbaum_sweep_eq r_min r_max num_r n_discard (by omega),
    ?_, pairwise_le_linspace hr num_r, length_linspace r_min r_max num_r, rfl⟩
  exact (pairwise_flatMap_replicate _ (pairwise_le_linspace hr num_r)).chain'

/-- Witness for C5 at `r_min = 0`, `r_max = 1`, `num_r = 2`, `n_iter = 2`,
`n_discard = 1`. -/
theorem C5_parameters_sorted_witness :
    ∃ ps xs : List ℚ,
      plot_feigenbaum_sweep 0 1 2 2 1 = some (ps, xs) ∧
      ps.Chain' (· ≤ ·) ∧
      (linspace 0 1 2).Pairwise (· ≤ ·) ∧
      (linspace 0 1 2).length = 2 ∧
      ps = (linspace 0 1 2).flatMap (fun r => List.replicate (2 - 1) r) :=
  C5_parameters_sorted 0 1 2 2 1 (by decide) (by decide) (by norm_num)

/-- Claim C6: the sweep body run on the shared buffer — whatever stale
contents the buffer holds from the previous parameter value — returns
exactly what a fresh call `iterate_logistic r 0.5 n_iter` returns: buffer
reuse leaks no state between parameter runs. -/
theorem C6_buffer_reuse_fresh (r : ℚ) (n_iter : ℕ) (x : List ℚ)
    (hn : 1 ≤ n_iter) (hlen : x.length = n_iter) :
    runOne r n_iter x = iterate_logistic r (1/2) n_iter := by
  rw [runOne_eq r hn hlen, iterate_logistic_eq r (1/2) hn]

/-- Witness for C6: a dirty buffer `[7, 9]` gives the same result as a
fresh trajectory. -/
theorem C6_buffer_reuse_fresh_witness :
    runOne 3 2 [7, 9] = iterate_logistic 3 (1/2) 2 :=
  C6_buffer_reuse_fresh 3 2 [7, 9] (by decide) (by decide)

/-- Claim C7: for every `r > 1` and `n_iter ≥ 1`, starting at the
nontrivial fixed point `x0 = 1 - 1/r` yields a trajectory in which every
element equals `x0`. -/
theorem C7_fixed_point (r : ℚ) (hr : 1 < r) (n_iter : ℕ) (hn : 1 ≤ n_iter) :
    iterate_logistic r (1 - 1/r) n_iter =
      some (List.replicate n_iter (1 - 1/r)) := by
  rw [iterate_logistic_eq r _ hn, logisticList_fixed (by linarith) n_iter]

/-- Witness for C7 at `r = 2`, where `1 - 1/2 = 0.5`: every element of the
length-3 trajectory is `0.5`. -/
theorem C7_fixed_point_witness :
    iterate_logistic 2 (1 - 1/2) 3 = some (List.replicate 3 (1 - 1/2)) :=
  C7_fixed_point 2 (by norm_num) 3 (by decide)

/-- Claim C8: both the trajectory iteration and the parameter sweep are
deterministic — two runs with identical arguments produce identical output
sequences. -/
theorem C8_deterministic (r r2 x0 x02 : ℚ) (n n2 : ℕ)
    (r_min r_min2 r_max r_max2 : ℚ) (num num2 nit nit2 nd nd2 : ℕ)
    (h1 : r = r2) (h2 : x0 = x02) (h3 : n = n2) (h4 : r_min = r_min2)
    (h5 : r_max = r_max2) (h6 : num = num2) (h7 : nit = nit2)
    (h8 : nd = nd2) :
    iterate_logistic r x0 n = iterate_logistic r2 x02 n2 ∧
    plot_feigenbaum_sweep r_min r_max num nit nd =
      plot_feigenbaum_sweep r_min2 r_max2 num2 nit2 nd2 := by
  subst h1 h2 h3 h4 h5 h6 h7 h8
  exact ⟨rfl, rfl⟩

/-- Witness for C8 at concrete arguments. -/
theorem C8_deterministic_witness :
    iterate_logistic 2 (1/2) 3 = iterate_logistic 2 (1/2) 3 ∧
    plot_feigenbaum_sweep 0 1 2 2 1 = plot_feigenbaum_sweep 0 1 2 2 1 :=
  C8_deterministic 2 2 (1/2) (1/2) 3 3 0 0 1 1 2 2 2 2 1 1
    rfl rfl rfl rfl rfl rfl rfl rfl

/-- Claim C9: for `0 ≤ r ≤ 4`, `0 ≤ x0 ≤ 1` and `n_iter ≥ 1`, every
element of the trajectory lies in `[0, 1]`. -/
theorem C9_trajectory_bounded (r x0 : ℚ) (n_iter : ℕ) (hr0 : 0 ≤ r)
    (hr4 : r ≤ 4) (hx0 : 0 ≤ x0) (hx1 : x0 ≤ 1) (hn : 1 ≤ n_iter) :
    ∃ x : List ℚ, iterate_logistic r x0 n_iter = some x ∧
      ∀ v ∈ x, 0 ≤ v ∧ v ≤ 1 := by
  refine ⟨_, iterate_logistic_eq r x0 hn, ?_⟩
  intro v hv
  rw [logisticList, List.mem_map] at hv
  obtain ⟨j, _, rfl⟩ := hv
  exact traj_bounds hr0 hr4 hx0 hx1 j

/-- Witness for C9 at `r = 4`, `x0 = 1/3`, `n_iter = 2`. -/
theorem C9_trajectory_bounded_witness :
    ∃ x : List ℚ, iterate_logistic 4 (1/3) 2 = some x ∧
      ∀ v ∈ x, 0 ≤ v ∧ v ≤ 1 :=
  C9_trajectory_bounded 4 (1/3) 2 (by norm_num) (by norm_num) (by norm_num)
    (by norm_num) (by decide)

/-- Claim C10: with `n_iter = 0` the function allocates a length-0 buffer
and then unconditionally writes element 0, so the call fails with an
out-of-bounds index error instead of returning an empty trajectory. -/
theorem C10_zero_iterations_fails (r x0 : ℚ) :
    iterate_logistic r x0 0 = none := by
  simp [iterate_logistic, setAt]

/-- Claim C4, counterexample: at the invalid configuration
`n_discard = n_iter = 1` (with `num_r = 1`, `r_min = r_max = 3`) the sweep
does not fail: it silently returns a Sweep Result with two empty
sequences. -/
theorem C4_counterexample_silent_empty :
    plot_feigenbaum_sweep 3 3 1 1 1 = some ([], []) := by
  norm_num [plot_feigenbaum_sweep, feigenbaum_loop, runOne, linspace,
    setAt, iterLoop, logistic_step, List.replicate_succ, List.set]

/-- Claim C4, amended: the code performs no configuration validation.  For
every configuration with `n_iter ≥ 1` and `n_discard ≥ n_iter` the sweep
silently succeeds and returns two empty sequences; and `n_iter = 0` makes
the trajectory function fail with an out-of-bounds index error on the
write of element 0, not with a descriptive configuration error. -/
theorem C4_amended_no_validation (r_min r_max : ℚ)
    (num_r n_iter n_discard : ℕ) (hn : 1 ≤ n_iter) (hd : n_iter ≤ n_discard) :
    plot_feigenbaum_sweep r_min r_max num_r n_iter n_discard =
      some ([], []) ∧
    ∀ r x0 : ℚ, iterate_logistic r x0 0 = none := by
  constructor
  · rw [plot_feigenbaum_sweep_eq r_min r_max num_r n_discard hn]
    have hz : n_iter - n_discard = 0 := by omega
    have h1 : ((linspace r_min r_max num_r).flatMap
        fun r => List.replicate (n_iter - n_discard) r) = [] := by
      apply List.eq_nil_of_length_eq_zero
      rw [length_flatMap_const _ _ (n_iter - n_discard)
        (fun r => List.length_replicate _ _), hz, Nat.mul_zero]
    have h2 : ((linspace r_min r_max num_r).flatMap
        fun r => (logisticList r (1/2) n_iter).drop n_discard) = [] := by
      apply List.eq_nil_of_length_eq_zero
      rw [length_flatMap_const _ _ (n_iter - n_discard)
        (fun r => by rw [List.length_drop, length_logisticList]), hz,
        Nat.mul_zero]
    rw [h1, h2]
  · intro r x0
    simp [iterate_logistic, setAt]

/-- Witness for the amended C4 at `n_iter = 1`, `n_discard = 2`. -/
theorem C4_amended_no_validation_witness :
    plot_feigenbaum_sweep 0 1 3 1 2 = some ([], []) ∧
    ∀ r x0 : ℚ, iterate_logistic r x0 0 = none :=
  C4_amended_no_validation 0 1 3 1 2 (by decide) (by decide)
